import Mathlib

/-!
Verification of the Retro Block Stack game core.

The definitions below are a shallow embedding of the game logic found in
src/App.tsx, together with the iterative snapshot of the same logic in
src/unnamed/part_006 (the variant with debris resting detection, pairwise
debris collision and the lock-time shatter/nudge pass).  JS numbers are
modelled as `Int` where the program only ever holds integers, and as `ℚ`
elsewhere; JS array indexing (`a[i]`, which yields `undefined` out of
range, including for negative `i`) is modelled as an `Option` lookup,
`jsIndex`.  Transcendental operations (`Math.cos`, `Math.sin`,
`Math.sqrt`, `Math.atan2`, `Math.PI`) are abstracted as parameters, since
no property verified here depends on their values.  `Math.random` is
modelled as an explicit stream `r : ℕ → ℚ` of draws, consumed in exactly
the order the source calls `Math.random()`.
-/

set_option maxHeartbeats 1000000

namespace RetroStack

/-- Cell status, the second component of a board cell:
`'clear' | 'merged' | 'ghost' | 'cracking'` (src/types). -/
inductive Status where
  | clear
  | merged
  | ghost
  | cracking
deriving DecidableEq, Repr

/-- A board cell `[value, status]`.  Piece kinds (`'I'`..`'Z'`) are coded as
the numbers `1`..`7`; the empty value `0` stays `0`. -/
abbrev Cell := Nat × Status

/-- The board: a list of rows of cells (src/App.tsx `Board`). -/
abbrev Board := List (List Cell)

/-- A tetromino shape matrix (`CellValue[][]`), `0` marking unoccupied. -/
abbrev Shape := List (List Nat)

/-- An (x, y) position in cells; also used for movement offsets. -/
structure Pos where
  x : Int
  y : Int
deriving DecidableEq, Repr

/-- The active player piece (src/types `Player`). -/
structure Player where
  pos : Pos
  tetromino : Shape
  collided : Bool
deriving DecidableEq, Repr

/-- `BOARD_WIDTH` (src/unnamed/part_003, constants). -/
def BOARD_WIDTH : Int := 10

/-- `BOARD_HEIGHT` (src/unnamed/part_003, constants). -/
def BOARD_HEIGHT : Int := 20

/-- `LINE_POINTS` (src/unnamed/part_003, constants). -/
def LINE_POINTS : List Nat := [40, 100, 300, 1200]

/-- JS array indexing: `l[i]` is `undefined` (here `none`) for `i < 0` or
`i ≥ l.length`. -/
def jsIndex {α : Type} (l : List α) (i : Int) : Option α :=
  if i < 0 then none else l.get? i.toNat

/-- An empty board row: `new Array(BOARD_WIDTH).fill([0, 'clear'])`. -/
def emptyRow : List Cell := List.replicate 10 (0, Status.clear)

/-- `createBoard` (src/App.tsx:9): a `BOARD_HEIGHT × BOARD_WIDTH` board of
empty clear cells. -/
def createBoard : Board := List.replicate 20 emptyRow

/-- The per-cell test inside `checkCollision` (src/App.tsx:160-166):
`newY >= BOARD_HEIGHT || newX < 0 || newX >= BOARD_WIDTH ||
!boardToCheck[newY] || boardToCheck[newY][newX][1] !== 'clear'`.
A missing row (`boardToCheck[newY]` undefined, which in JS also happens for
every `newY < 0`) counts as a collision.  A missing cell inside an existing
row cannot be reached by the source (its width guards run first and all
rows are 10 wide); it is mapped to a collision here to keep the function
total. -/
def rowNotClear (row : List Cell) (newX : Int) : Bool :=
  match jsIndex row newX with
  | none => true
  | some c => decide (c.2 ≠ Status.clear)

def cellNotClear (board : Board) (newY newX : Int) : Bool :=
  match jsIndex board newY with
  | none => true
  | some row => rowNotClear row newX

def cellCollides (board : Board) (newY newX : Int) : Bool :=
  decide (BOARD_HEIGHT ≤ newY) || decide (newX < 0) || decide (BOARD_WIDTH ≤ newX) ||
    cellNotClear board newY newX

theorem cellNotClear_of_none {board : Board} {newY : Int} (newX : Int)
    (h : jsIndex board newY = none) : cellNotClear board newY newX = true := by
  unfold cellNotClear
  rw [h]

theorem cellNotClear_of_some {board : Board} {newY : Int} {row : List Cell} (newX : Int)
    (h : jsIndex board newY = some row) : cellNotClear board newY newX = rowNotClear row newX := by
  unfold cellNotClear
  rw [h]

theorem rowNotClear_of_none {row : List Cell} {newX : Int}
    (h : jsIndex row newX = none) : rowNotClear row newX = true := by
  unfold rowNotClear
  rw [h]

theorem rowNotClear_of_some {row : List Cell} {newX : Int} {c : Cell}
    (h : jsIndex row newX = some c) : rowNotClear row newX = decide (c.2 ≠ Status.clear) := by
  unfold rowNotClear
  rw [h]

/-- `checkCollision` (src/App.tsx:153-173): scan every occupied cell of the
tetromino, placed at `pos + move`, against the board. -/
def checkCollision (p : Player) (board : Board) (moveX moveY : Int) : Bool :=
  p.tetromino.enum.any (fun yrow =>
    yrow.2.enum.any (fun xv =>
      decide (xv.2 ≠ 0) &&
        cellCollides board ((yrow.1 : Int) + p.pos.y + moveY) ((xv.1 : Int) + p.pos.x + moveX)))

/-- Modelled from the spec words of §4.1 (claim C1), for comparison with the
implementation: a collision is reported exactly when some occupied cell
falls outside `[0, W)` on x, lands at `y ≥ H`, or lands on a board cell
whose status is not clear; a cell in a row above the grid (`y < 0`) is
permitted and is not, by itself, a collision. -/
def collidesSpecC1 (p : Player) (board : Board) (moveX moveY : Int) : Bool :=
  p.tetromino.enum.any (fun yrow =>
    yrow.2.enum.any (fun xv =>
      decide (xv.2 ≠ 0) &&
        (decide (BOARD_HEIGHT ≤ (yrow.1 : Int) + p.pos.y + moveY) ||
         decide ((xv.1 : Int) + p.pos.x + moveX < 0) ||
         decide (BOARD_WIDTH ≤ (xv.1 : Int) + p.pos.x + moveX) ||
         (match jsIndex board ((yrow.1 : Int) + p.pos.y + moveY) with
          | none => false
          | some row =>
            match jsIndex row ((xv.1 : Int) + p.pos.x + moveX) with
            | none => false
            | some c => decide (c.2 ≠ Status.clear)))))

theorem jsIndex_eq_none_iff {α : Type} (l : List α) (i : Int) :
    jsIndex l i = none ↔ i < 0 ∨ (l.length : Int) ≤ i := by
  unfold jsIndex
  split
  · simp
    omega
  · rename_i h
    rw [List.get?_eq_getElem?, List.getElem?_eq_none_iff]
    constructor
    · intro hlen
      right
      omega
    · intro hor
      rcases hor with h1 | h2
      · omega
      · omega

theorem jsIndex_eq_some_iff {α : Type} (l : List α) (i : Int) (a : α) :
    jsIndex l i = some a ↔ 0 ≤ i ∧ l.get? i.toNat = some a := by
  unfold jsIndex
  split
  · rename_i h
    constructor
    · intro hc
      exact absurd hc (by simp)
    · intro hc
      omega
  · rename_i h
    constructor
    · intro hc
      exact ⟨by omega, hc⟩
    · intro hc
      exact hc.2

theorem checkCollision_eq_true_iff (p : Player) (board : Board) (moveX moveY : Int) :
    checkCollision p board moveX moveY = true ↔
      ∃ (ri ci : ℕ) (row : List Nat) (v : Nat),
        p.tetromino.get? ri = some row ∧ row.get? ci = some v ∧ v ≠ 0 ∧
        cellCollides board ((ri : Int) + p.pos.y + moveY) ((ci : Int) + p.pos.x + moveX) = true := by
  unfold checkCollision
  rw [List.any_eq_true]
  constructor
  · rintro ⟨yrow, hmem, hany⟩
    rw [List.any_eq_true] at hany
    rcases hany with ⟨xv, hxmem, hcell⟩
    rw [List.mem_enum_iff_get?] at hmem hxmem
    rw [Bool.and_eq_true, decide_eq_true_iff] at hcell
    exact ⟨yrow.1, xv.1, yrow.2, xv.2, hmem, hxmem, hcell.1, hcell.2⟩
  · rintro ⟨ri, ci, row, v, hrow, hv, hne, hcol⟩
    refine ⟨(ri, row), ?_, ?_⟩
    · rw [List.mem_enum_iff_get?]
      exact hrow
    · rw [List.any_eq_true]
      refine ⟨(ci, v), ?_, ?_⟩
      · rw [List.mem_enum_iff_get?]
        exact hv
      · rw [Bool.and_eq_true, decide_eq_true_iff]
        exact ⟨hne, hcol⟩

theorem cellCollides_iff (board : Board) (newY newX : Int)
    (hwf : ∀ row ∈ board, row.length = 10) :
    cellCollides board newY newX = true ↔
      (BOARD_HEIGHT ≤ newY ∨ newX < 0 ∨ BOARD_WIDTH ≤ newX ∨
       newY < 0 ∨ (board.length : Int) ≤ newY ∨
       ∃ (row : List Cell) (c : Cell),
         jsIndex board newY = some row ∧ jsIndex row newX = some c ∧ c.2 ≠ Status.clear) := by
  unfold cellCollides
  rcases hrow : jsIndex board newY with _ | row
  · have h1 := (jsIndex_eq_none_iff board newY).1 hrow
    rw [cellNotClear_of_none newX hrow]
    simp only [Bool.or_true]
    constructor
    · intro _
      rcases h1 with h1 | h1
      · exact Or.inr (Or.inr (Or.inr (Or.inl h1)))
      · exact Or.inr (Or.inr (Or.inr (Or.inr (Or.inl h1))))
    · intro _
      trivial
  · have hybounds : 0 ≤ newY ∧ newY < (board.length : Int) := by
      have h2 := (jsIndex_eq_some_iff board newY row).1 hrow
      rcases h2 with ⟨hpos, hget⟩
      rw [List.get?_eq_getElem?, List.getElem?_eq_some_iff] at hget
      rcases hget with ⟨hlt, _⟩
      exact ⟨hpos, by omega⟩
    rw [cellNotClear_of_some newX hrow]
    rcases hcell : jsIndex row newX with _ | c
    · have hlen : row.length = 10 := by
        apply hwf
        have h2 := (jsIndex_eq_some_iff board newY row).1 hrow
        exact List.get?_mem h2.2
      have h3 := (jsIndex_eq_none_iff row newX).1 hcell
      rw [hlen] at h3
      rw [rowNotClear_of_none hcell]
      simp only [Bool.or_true]
      constructor
      · intro _
        rcases h3 with h3 | h3
        · exact Or.inr (Or.inl h3)
        · refine Or.inr (Or.inr (Or.inl ?_))
          simp only [BOARD_WIDTH]
          omega
      · intro _
        trivial
    · rw [rowNotClear_of_some hcell]
      simp only [Bool.or_eq_true, decide_eq_true_iff]
      constructor
      · rintro (((h | h) | h) | h)
        · exact Or.inl h
        · exact Or.inr (Or.inl h)
        · exact Or.inr (Or.inr (Or.inl h))
        · right; right; right; right; right
          exact ⟨row, c, rfl, hcell, h⟩
      · rintro (h | h | h | h | h | ⟨row2, c2, hrow2, hcell2, hne2⟩)
        · exact Or.inl (Or.inl (Or.inl h))
        · exact Or.inl (Or.inl (Or.inr h))
        · exact Or.inl (Or.inr h)
        · omega
        · omega
        · injection hrow2 with hr
          subst hr
          rw [hcell] at hcell2
          injection hcell2 with hc
          subst hc
          exact Or.inr hne2

/-- The concrete player of the C1 counterexample: a single occupied cell at
relative (0,0), positioned one row above the grid. -/
def c1Player : Player := { pos := { x := 0, y := -1 }, tetromino := [[1]], collided := false }

/-- Claim C1, counterexample.  A piece whose only occupied cell sits at
`y = -1` on an otherwise empty board: the spec predicate of the claim says
this is not a collision (a row above the grid is permitted), but
`checkCollision` reports a collision, because `boardToCheck[newY]` is
`undefined` for a negative row index and the absent-row test fires. -/
theorem c1_counterexample :
    checkCollision c1Player createBoard 0 0 = true ∧
      collidesSpecC1 c1Player createBoard 0 0 = false := by
  constructor
  · decide
  · decide

/-- Claim C1, amended: for every piece, board with 10-wide rows, and offset,
`checkCollision` returns true exactly when some occupied cell of the shape,
placed at `piece.pos + offset`, falls outside `[0, W)` on x, lands at
`y ≥ H`, lands in a row absent from the board — which includes every row
`y < 0`, reported as a collision fail-safe — or lands on a board cell whose
status is not Clear. -/
theorem c1_amended (p : Player) (board : Board) (moveX moveY : Int)
    (hwf : ∀ row ∈ board, row.length = 10) :
    checkCollision p board moveX moveY = true ↔
      ∃ (ri ci : ℕ) (row : List Nat) (v : Nat),
        p.tetromino.get? ri = some row ∧ row.get? ci = some v ∧ v ≠ 0 ∧
        (BOARD_HEIGHT ≤ (ri : Int) + p.pos.y + moveY ∨
         (ci : Int) + p.pos.x + moveX < 0 ∨
         BOARD_WIDTH ≤ (ci : Int) + p.pos.x + moveX ∨
         (ri : Int) + p.pos.y + moveY < 0 ∨
         (board.length : Int) ≤ (ri : Int) + p.pos.y + moveY ∨
         ∃ (brow : List Cell) (c : Cell),
           jsIndex board ((ri : Int) + p.pos.y + moveY) = some brow ∧
           jsIndex brow ((ci : Int) + p.pos.x + moveX) = some c ∧ c.2 ≠ Status.clear) := by
  rw [checkCollision_eq_true_iff]
  constructor
  · rintro ⟨ri, ci, row, v, h1, h2, h3, h4⟩
    rw [cellCollides_iff board _ _ hwf] at h4
    exact ⟨ri, ci, row, v, h1, h2, h3, h4⟩
  · rintro ⟨ri, ci, row, v, h1, h2, h3, h4⟩
    refine ⟨ri, ci, row, v, h1, h2, h3, ?_⟩
    rw [cellCollides_iff board _ _ hwf]
    exact h4

/-- Witness for `c1_amended` at a concrete input: a piece overlapping a
merged cell on a 20×10 board. -/
theorem c1_amended_witness :
    checkCollision { pos := { x := 4, y := 18 }, tetromino := [[1]], collided := false }
        (List.replicate 19 emptyRow ++ [List.replicate 10 (1, Status.merged)]) 0 1 = true ↔
      ∃ (ri ci : ℕ) (row : List Nat) (v : Nat),
        ([[1]] : Shape).get? ri = some row ∧ row.get? ci = some v ∧ v ≠ 0 ∧
        (BOARD_HEIGHT ≤ (ri : Int) + 18 + 1 ∨
         (ci : Int) + 4 + 0 < 0 ∨
         BOARD_WIDTH ≤ (ci : Int) + 4 + 0 ∨
         (ri : Int) + 18 + 1 < 0 ∨
         (((List.replicate 19 emptyRow ++ [List.replicate 10 (1, Status.merged)]) : Board).length : Int) ≤ (ri : Int) + 18 + 1 ∨
         ∃ (brow : List Cell) (c : Cell),
           jsIndex (List.replicate 19 emptyRow ++ [List.replicate 10 (1, Status.merged)]) ((ri : Int) + 18 + 1) = some brow ∧
           jsIndex brow ((ci : Int) + 4 + 0) = some c ∧ c.2 ≠ Status.clear) :=
  c1_amended { pos := { x := 4, y := 18 }, tetromino := [[1]], collided := false }
    (List.replicate 19 emptyRow ++ [List.replicate 10 (1, Status.merged)]) 0 1 (by decide)

/-- Claim C10: the downward collision probing used by hard drop
(src/App.tsx:486-498) and by the ghost projection (src/App.tsx:718-723)
terminates: for every piece with at least one occupied cell there is a
finite `k` with a collision at offset `(0, k+1)`; and a shape with no
occupied cells (such as the placeholder `[[0]]`) never collides at any
offset. -/
theorem c10_probe_terminates :
    (∀ (p : Player) (board : Board),
      (∃ (ri ci : ℕ) (row : List Nat) (v : Nat),
          p.tetromino.get? ri = some row ∧ row.get? ci = some v ∧ v ≠ 0) →
      ∃ k : ℕ, checkCollision p board 0 ((k : Int) + 1) = true) ∧
    (∀ (p : Player) (board : Board) (moveX moveY : Int),
      (∀ row ∈ p.tetromino, ∀ v ∈ row, v = 0) →
      checkCollision p board moveX moveY = false) := by
  constructor
  · rintro p board ⟨ri, ci, row, v, h1, h2, h3⟩
    refine ⟨20 + p.pos.y.natAbs, ?_⟩
    rw [checkCollision_eq_true_iff]
    refine ⟨ri, ci, row, v, h1, h2, h3, ?_⟩
    unfold cellCollides
    have hy : BOARD_HEIGHT ≤ (ri : Int) + p.pos.y + (((20 + p.pos.y.natAbs : ℕ) : Int) + 1) := by
      simp only [BOARD_HEIGHT]
      omega
    rw [decide_eq_true hy]
    simp
  · intro p board moveX moveY hz
    unfold checkCollision
    rw [Bool.eq_false_iff]
    intro hany
    rw [List.any_eq_true] at hany
    rcases hany with ⟨yrow, hmem, hany2⟩
    rw [List.any_eq_true] at hany2
    rcases hany2 with ⟨xv, hxmem, hcell⟩
    rw [Bool.and_eq_true, decide_eq_true_iff] at hcell
    rw [List.mem_enum_iff_get?] at hmem hxmem
    exact hcell.1 (hz yrow.2 (List.get?_mem hmem) xv.2 (List.get?_mem hxmem))

/-- Witness for `c10_probe_terminates`: the single-cell piece over an empty
board does collide at some finite downward offset, and the placeholder
piece `[[0]]` never collides. -/
theorem c10_witness :
    (∃ k : ℕ, checkCollision { pos := { x := 0, y := 0 }, tetromino := [[1]], collided := false }
        createBoard 0 ((k : Int) + 1) = true) ∧
      checkCollision { pos := { x := 0, y := 0 }, tetromino := [[0]], collided := false }
        createBoard 0 1 = false :=
  ⟨c10_probe_terminates.1 { pos := { x := 0, y := 0 }, tetromino := [[1]], collided := false }
      createBoard ⟨0, 0, [1], 1, rfl, rfl, by decide⟩,
   c10_probe_terminates.2 { pos := { x := 0, y := 0 }, tetromino := [[0]], collided := false }
      createBoard 0 1 (by decide)⟩

/-- `rotate` (src/App.tsx:464-467): transpose (`matrix.map((_, index) =>
matrix.map(col => col[index]))`) then reverse each row.  An out-of-range
`col[index]` (impossible for the square shape matrices of the piece table)
is read as `0`. -/
def rotateMatrix (m : Shape) : Shape :=
  (m.mapIdx (fun i _ => m.map (fun col => col.getD i 0))).map List.reverse

/-- `clonedPlayer.tetromino[0].length`, the kick-search bound. -/
def kickWidth (t : Shape) : ℕ := (t.headD []).length

/-- The wall-kick loop of `playerRotate` (src/App.tsx:474-482): while the
rotated piece collides, shift by `offset`, flip and grow the offset
(`offset = -(offset + (offset > 0 ? 1 : -1))`), and give up as soon as the
new offset exceeds the piece width.  The loop always exits within
`2 * width + 4` iterations (the offset magnitude grows by one each step and
the positive test fires at magnitude `width + 1` or `width + 2`), so that
fuel makes the recursion total without changing its value. -/
def kickSearch (board : Board) : ℕ → Player → Int → Option Player
  | 0, _, _ => none
  | fuel + 1, p, offset =>
    if checkCollision p board 0 0 = false then some p
    else
      let p2 : Player := { p with pos := { x := p.pos.x + offset, y := p.pos.y } }
      let offset2 : Int := -(offset + (if 0 < offset then 1 else -1))
      if (kickWidth p.tetromino : Int) < offset2 then none
      else kickSearch board fuel p2 offset2

/-- `playerRotate` (src/App.tsx:469-484): build the rotated candidate, run
the kick search from offset `1`; commit the found placement, or leave the
player untouched when the search gives up (the source resets
`clonedPlayer.pos.x` and returns without calling `setPlayer`). -/
def playerRotate (board : Board) (p : Player) : Player :=
  (kickSearch board (2 * kickWidth (rotateMatrix p.tetromino) + 4)
    { p with tetromino := rotateMatrix p.tetromino } 1).getD p

/-- Claim C3: if the kick search finds no non-colliding placement before the
offset exceeds the piece width, the rotation is rejected and the active
piece is left entirely unchanged — same position.x, position.y and shape. -/
theorem c3_rotation_reject (board : Board) (p : Player)
    (h : kickSearch board (2 * kickWidth (rotateMatrix p.tetromino) + 4)
        { p with tetromino := rotateMatrix p.tetromino } 1 = none) :
    playerRotate board p = p ∧
      (playerRotate board p).pos.x = p.pos.x ∧
      (playerRotate board p).pos.y = p.pos.y ∧
      (playerRotate board p).tetromino = p.tetromino := by
  have hmain : playerRotate board p = p := by
    unfold playerRotate
    rw [h]
    rfl
  exact ⟨hmain, by rw [hmain], by rw [hmain], by rw [hmain]⟩

/-- A board whose every cell is merged: no placement is ever clear on it. -/
def mergedBoard : Board := List.replicate 20 (List.replicate 10 (1, Status.merged))

/-- The I piece shape from the constants table. -/
def iShape : Shape := [[0, 1, 0, 0], [0, 1, 0, 0], [0, 1, 0, 0], [0, 1, 0, 0]]

/-- Witness for `c3_rotation_reject`: an I piece flush against the left wall
of a fully merged board; every kick offset collides, so the rotation is
rejected and the piece is unchanged. -/
theorem c3_rotation_reject_witness :
    playerRotate mergedBoard { pos := { x := 0, y := 0 }, tetromino := iShape, collided := false } =
        { pos := { x := 0, y := 0 }, tetromino := iShape, collided := false } ∧
      (playerRotate mergedBoard { pos := { x := 0, y := 0 }, tetromino := iShape, collided := false }).pos.x = 0 ∧
      (playerRotate mergedBoard { pos := { x := 0, y := 0 }, tetromino := iShape, collided := false }).pos.y = 0 ∧
      (playerRotate mergedBoard { pos := { x := 0, y := 0 }, tetromino := iShape, collided := false }).tetromino = iShape :=
  c3_rotation_reject mergedBoard
    { pos := { x := 0, y := 0 }, tetromino := iShape, collided := false } (by decide)

/-- The value the landing piece writes at absolute board coordinates
`(rI, cI)`: the tetromino entry at `(rI - pos.y, cI - pos.x)`, or `0` when
that is out of the shape. -/
def pieceCellValue (pl : Player) (rI cI : ℕ) : ℕ :=
  match jsIndex pl.tetromino ((rI : Int) - pl.pos.y) with
  | none => 0
  | some row =>
    match jsIndex row ((cI : Int) - pl.pos.x) with
    | none => 0
    | some v => v

/-- The board-merging step of `handlePieceLanded` (src/App.tsx:347-358):
every occupied cell of the landed piece with `boardY < BOARD_HEIGHT` is
written into the board as `[value, 'merged']`.  (A JS write at a negative
index creates a plain object property, not an array element, so skipping
out-of-range coordinates is faithful.) -/
def mergePiece (pl : Player) (b : Board) : Board :=
  b.mapIdx (fun rI row => row.mapIdx (fun cI c =>
    let v := pieceCellValue pl rI cI
    if v ≠ 0 ∧ rI < 20 then (v, Status.merged) else c))

/-- The full-row test of `handlePieceLanded` (src/App.tsx:361-365):
`row.every(cell => cell[0] !== 0 && cell[1] === 'merged')`. -/
def isFullRow (row : List Cell) : Bool :=
  row.all (fun c => decide (c.1 ≠ 0) && decide (c.2 = Status.merged))

/-- `linesToClearIndices` (src/App.tsx:360-365): indices of the full rows. -/
def fullRowIndices (b : Board) : List ℕ :=
  (b.enum.filter (fun pr => isFullRow pr.2)).map Prod.fst

/-- The sweep reduce of `handlePieceLanded` (src/App.tsx:391-396): keep the
rows whose index is not in the cleared set. -/
def keptRows (b : Board) (idxs : List ℕ) : Board :=
  (b.enum.filter (fun pr => !(idxs.contains pr.1))).map Prod.snd

/-- The pad loop of `handlePieceLanded` (src/App.tsx:398-400): unshift empty
rows until the board is `BOARD_HEIGHT` tall again. -/
def padTop (rows : Board) : Board :=
  List.replicate (20 - rows.length) emptyRow ++ rows

/-- The complete sweep of the cleared rows (src/App.tsx:391-400). -/
def sweepBoard (b : Board) (idxs : List ℕ) : Board := padTop (keptRows b idxs)

/-- Score, lines and level as held by the component state. -/
structure GameStats where
  score : ℕ
  lines : ℕ
  level : ℕ
deriving DecidableEq, Repr

/-- The score/lines update of the sweep phase (src/App.tsx:402-403):
`score += LINE_POINTS[n-1] * level`, `lines += n` with `n` the number of
cleared rows. -/
def applyLineClear (st : GameStats) (n : ℕ) : GameStats :=
  { st with score := st.score + LINE_POINTS.getD (n - 1) 0 * st.level,
            lines := st.lines + n }

theorem length_mergePiece (pl : Player) (b : Board) : (mergePiece pl b).length = b.length := by
  unfold mergePiece
  rw [List.length_mapIdx]

theorem contains_fullRowIndices (b : Board) (i : ℕ) :
    (fullRowIndices b).contains i = true ↔
      ∃ row, b.get? i = some row ∧ isFullRow row = true := by
  unfold fullRowIndices
  rw [List.elem_iff]
  constructor
  · intro hmem
    rw [List.mem_map] at hmem
    rcases hmem with ⟨pr, hpr, hfst⟩
    rw [List.mem_filter] at hpr
    rcases hpr with ⟨henum, hfull⟩
    rw [List.mem_enum_iff_get?] at henum
    exact ⟨pr.2, hfst ▸ henum, hfull⟩
  · rintro ⟨row, hget, hfull⟩
    rw [List.mem_map]
    refine ⟨(i, row), ?_, rfl⟩
    rw [List.mem_filter]
    constructor
    · rw [List.mem_enum_iff_get?]
      exact hget
    · exact hfull

theorem keptRows_fullRowIndices (b : Board) :
    keptRows b (fullRowIndices b) = b.filter (fun row => !(isFullRow row)) := by
  unfold keptRows
  have hcongr : b.enum.filter (fun pr => !((fullRowIndices b).contains pr.1)) =
      b.enum.filter (fun pr => !(isFullRow pr.2)) := by
    apply List.filter_congr
    intro pr hpr
    rw [List.mem_enum_iff_get?] at hpr
    have : (fullRowIndices b).contains pr.1 = isFullRow pr.2 := by
      rcases hfull : isFullRow pr.2 with _ | _
      · rw [Bool.eq_false_iff]
        intro hcontra
        rcases (contains_fullRowIndices b pr.1).1 hcontra with ⟨row, hget, hfull2⟩
        rw [hpr] at hget
        injection hget with hr
        subst hr
        rw [hfull] at hfull2
        exact Bool.false_ne_true hfull2
      · exact (contains_fullRowIndices b pr.1).2 ⟨pr.2, hpr, hfull⟩
    rw [this]
  rw [hcongr]
  have hmap : b.filter (fun row => !(isFullRow row)) =
      List.filter (fun row => !(isFullRow row)) (List.map Prod.snd b.enum) := by
    rw [List.enum_map_snd]
  rw [hmap, List.filter_map]
  rfl

theorem length_fullRowIndices (b : Board) :
    (fullRowIndices b).length = (b.filter (fun row => isFullRow row)).length := by
  unfold fullRowIndices
  rw [List.length_map]
  have hmap : b.filter (fun row => isFullRow row) =
      List.filter (fun row => isFullRow row) (List.map Prod.snd b.enum) := by
    rw [List.enum_map_snd]
  rw [hmap, List.filter_map, List.length_map]
  rfl

theorem length_keptRows_fullRowIndices (b : Board) :
    (keptRows b (fullRowIndices b)).length = b.length - (fullRowIndices b).length := by
  rw [keptRows_fullRowIndices, length_fullRowIndices]
  have := List.length_eq_length_filter_add (l := b) (fun row => isFullRow row)
  omega

/-- Claim C2: locking a piece that completes exactly `n` full rows
(`1 ≤ n ≤ 4`) leaves, after the sweep, a board of exactly `BOARD_HEIGHT`
rows whose first `n` rows are fresh empty rows and whose remaining rows are
exactly the non-full rows of the merged board, and bumps the score by
exactly `LINE_POINTS[n-1] * level` and the line count by exactly `n`. -/
theorem c2_line_clear_pipeline (b : Board) (pl : Player) (st : GameStats)
    (hlen : b.length = 20)
    (h1 : 1 ≤ (fullRowIndices (mergePiece pl b)).length)
    (h4 : (fullRowIndices (mergePiece pl b)).length ≤ 4) :
    (sweepBoard (mergePiece pl b) (fullRowIndices (mergePiece pl b))).length = 20 ∧
    (sweepBoard (mergePiece pl b) (fullRowIndices (mergePiece pl b))).take
        (fullRowIndices (mergePiece pl b)).length =
      List.replicate (fullRowIndices (mergePiece pl b)).length emptyRow ∧
    (sweepBoard (mergePiece pl b) (fullRowIndices (mergePiece pl b))).drop
        (fullRowIndices (mergePiece pl b)).length =
      (mergePiece pl b).filter (fun row => !(isFullRow row)) ∧
    (applyLineClear st (fullRowIndices (mergePiece pl b)).length).score =
      st.score + LINE_POINTS.getD ((fullRowIndices (mergePiece pl b)).length - 1) 0 * st.level ∧
    (applyLineClear st (fullRowIndices (mergePiece pl b)).length).lines =
      st.lines + (fullRowIndices (mergePiece pl b)).length := by
  have hblen : (mergePiece pl b).length = 20 := by
    rw [length_mergePiece, hlen]
  have hn20 : (fullRowIndices (mergePiece pl b)).length ≤ 20 := by
    rw [length_fullRowIndices]
    calc ((mergePiece pl b).filter (fun row => isFullRow row)).length
        ≤ (mergePiece pl b).length := List.length_filter_le _ _
      _ = 20 := hblen
  have hkept : (keptRows (mergePiece pl b) (fullRowIndices (mergePiece pl b))).length =
      20 - (fullRowIndices (mergePiece pl b)).length := by
    rw [length_keptRows_fullRowIndices, hblen]
  have hpad : 20 - (keptRows (mergePiece pl b) (fullRowIndices (mergePiece pl b))).length =
      (fullRowIndices (mergePiece pl b)).length := by
    rw [hkept]
    omega
  refine ⟨?_, ?_, ?_, rfl, rfl⟩
  · unfold sweepBoard padTop
    rw [List.length_append, List.length_replicate, hkept]
    omega
  · unfold sweepBoard padTop
    rw [hpad]
    have := List.take_left
      (List.replicate (fullRowIndices (mergePiece pl b)).length emptyRow)
      (keptRows (mergePiece pl b) (fullRowIndices (mergePiece pl b)))
    rw [List.length_replicate] at this
    exact this
  · unfold sweepBoard padTop
    rw [hpad]
    have := List.drop_left
      (List.replicate (fullRowIndices (mergePiece pl b)).length emptyRow)
      (keptRows (mergePiece pl b) (fullRowIndices (mergePiece pl b)))
    rw [List.length_replicate] at this
    rw [this, keptRows_fullRowIndices]

/-- The landing scenario of the C2 witness: 19 empty rows, a bottom row
with nine merged cells, and a one-cell piece dropping into the gap. -/
def c2Board : Board :=
  List.replicate 19 emptyRow ++
    [(List.replicate 9 ((1 : ℕ), Status.merged)) ++ [((0 : ℕ), Status.clear)]]

/-- The one-cell piece completing the bottom row of `c2Board`. -/
def c2Piece : Player := { pos := { x := 9, y := 19 }, tetromino := [[1]], collided := false }

/-- Witness for `c2_line_clear_pipeline`: completing the bottom row clears
exactly one line, restores a 20-row board with one fresh empty top row, and
adds `LINE_POINTS[0] * level = 40 * 3` points at level 3. -/
theorem c2_line_clear_pipeline_witness :
    (sweepBoard (mergePiece c2Piece c2Board) (fullRowIndices (mergePiece c2Piece c2Board))).length = 20 ∧
    (sweepBoard (mergePiece c2Piece c2Board) (fullRowIndices (mergePiece c2Piece c2Board))).take
        (fullRowIndices (mergePiece c2Piece c2Board)).length =
      List.replicate (fullRowIndices (mergePiece c2Piece c2Board)).length emptyRow ∧
    (sweepBoard (mergePiece c2Piece c2Board) (fullRowIndices (mergePiece c2Piece c2Board))).drop
        (fullRowIndices (mergePiece c2Piece c2Board)).length =
      (mergePiece c2Piece c2Board).filter (fun row => !(isFullRow row)) ∧
    (applyLineClear { score := 100, lines := 21, level := 3 }
        (fullRowIndices (mergePiece c2Piece c2Board)).length).score =
      100 + LINE_POINTS.getD ((fullRowIndices (mergePiece c2Piece c2Board)).length - 1) 0 * 3 ∧
    (applyLineClear { score := 100, lines := 21, level := 3 }
        (fullRowIndices (mergePiece c2Piece c2Board)).length).lines =
      21 + (fullRowIndices (mergePiece c2Piece c2Board)).length :=
  c2_line_clear_pipeline c2Board c2Piece { score := 100, lines := 21, level := 3 }
    (by decide) (by decide) (by decide)

/-- Particle kinds: the `type` tags of the tagged union in src/types. -/
inductive PKind where
  | debris
  | smoke
  | leaf
  | ember
  | sparkle
deriving DecidableEq, Repr

/-- Smoke colors are `{r, g, b}` records in src/types. -/
structure RGB where
  r : ℚ
  g : ℚ
  b : ℚ
deriving DecidableEq, Repr

/-- A particle.  The TS type is a tagged union whose variants carry
different field sets; here it is flattened into one record with a `kind`
tag, each variant reading and writing only its own fields (unused fields
stay at their spawn value `0`), which keeps the JS spread updates
`{ ...p, ... }` literal. -/
structure Particle where
  kind : PKind
  x : ℚ
  y : ℚ
  vx : ℚ
  vy : ℚ
  color : String
  shapePoints : List (ℚ × ℚ)
  boundingRadius : ℚ
  rotation : ℚ
  rotationSpeed : ℚ
  shade : ℚ
  radius : ℚ
  size : ℚ
  life : ℚ
  initialLife : ℚ
  flutter : ℚ
  rgb : RGB
deriving DecidableEq, Repr

/-- A particle with every field zeroed, used as the base of the per-kind
object literals. -/
def baseParticle : Particle :=
  { kind := PKind.debris, x := 0, y := 0, vx := 0, vy := 0, color := "",
    shapePoints := [], boundingRadius := 0, rotation := 0, rotationSpeed := 0,
    shade := 0, radius := 0, size := 0, life := 0, initialLife := 0,
    flutter := 0, rgb := { r := 0, g := 0, b := 0 } }

/-- `MAX_PARTICLES` of src/App.tsx:126. -/
def MAX_PARTICLES : ℕ := 800

/-- `MAX_PARTICLES` of the snapshot src/unnamed/part_006:125. -/
def MAX_PARTICLES_SNAPSHOT : ℕ := 500

/-- The capped insertion used by every spawn event:
`[...prev, ...newParticles].slice(-MAX_PARTICLES)` in `createDebris`
(src/App.tsx:339) and `[...nudgedParticles, ...newFragments].slice(-MAX_PARTICLES)`
in the shatter/nudge lock pass (src/unnamed/part_006:351). -/
def capConcat (cap : ℕ) (prev newOnes : List Particle) : List Particle :=
  (prev ++ newOnes).drop ((prev ++ newOnes).length - cap)

/-- Claim C4: after every spawn event the particle collection holds at most
`MAX_PARTICLES` entries, the surviving entries are a suffix of the appended
collection (so the oldest entries are the ones evicted), and whenever the
newly spawned batch fits under the cap it is retained in full. -/
theorem c4_particle_cap (cap : ℕ) (prev newOnes : List Particle) :
    (capConcat cap prev newOnes).length ≤ cap ∧
    capConcat cap prev newOnes <:+ (prev ++ newOnes) ∧
    (newOnes.length ≤ cap → newOnes <:+ capConcat cap prev newOnes) := by
  refine ⟨?_, ?_, ?_⟩
  · unfold capConcat
    rw [List.length_drop]
    omega
  · exact List.drop_suffix _ _
  · intro hfit
    unfold capConcat
    rw [List.drop_append_eq_append_drop]
    have hz : (prev ++ newOnes).length - cap - prev.length = 0 := by
      rw [List.length_append]
      omega
    rw [hz, List.drop_zero]
    exact List.suffix_append _ _

/-- Witness for `c4_particle_cap`: one freshly spawned particle appended to
an empty collection under the `MAX_PARTICLES` cap of src/App.tsx. -/
theorem c4_particle_cap_witness :
    (capConcat MAX_PARTICLES [] [baseParticle]).length ≤ MAX_PARTICLES ∧
    capConcat MAX_PARTICLES [] [baseParticle] <:+ ([] ++ [baseParticle]) ∧
    [baseParticle] <:+ capConcat MAX_PARTICLES [] [baseParticle] :=
  ⟨(c4_particle_cap MAX_PARTICLES [] [baseParticle]).1,
   (c4_particle_cap MAX_PARTICLES [] [baseParticle]).2.1,
   (c4_particle_cap MAX_PARTICLES [] [baseParticle]).2.2 (by decide)⟩

/-- `BackgroundTheme` (src/types): the visual theme consumed by the spawn
policy. -/
inductive BackgroundTheme where
  | FOREST
  | WASTELAND
  | VOLCANIC
  | SPACE
deriving DecidableEq, Repr

/-- The transcendental operations of `Math` used by the particle code,
abstracted: no claim verified here depends on their values. -/
structure MathF where
  cosF : ℚ → ℚ
  sinF : ℚ → ℚ
  sqrtF : ℚ → ℚ
  atan2F : ℚ → ℚ → ℚ
  piF : ℚ

/-- A random stream is valid when every draw lies in `[0, 1)`, the contract
of `Math.random()`. -/
def ValidRng (r : ℕ → ℚ) : Prop := ∀ n, 0 ≤ r n ∧ r n < 1

/-- The vertex loop of `generateChippedShape` (src/App.tsx:23-35): each
vertex consumes two draws (angle jitter, then vertex radius) and updates
the running maximal squared radius. -/
def chipVertices (M : MathF) (r : ℕ → ℚ) (baseRadius : ℚ) (numV : ℕ) :
    ℕ → ℕ → ℕ → List (ℚ × ℚ) → ℚ → (List (ℚ × ℚ) × ℚ) × ℕ
  | 0, _, i, acc, maxSq => ((acc.reverse, maxSq), i)
  | rem + 1, v, i, acc, maxSq =>
    let angle := ((v : ℚ) / (numV : ℚ)) * M.piF * 2
    let angleOffset := (r i - 0.5) * (M.piF / (numV : ℚ))
    let finalAngle := angle + angleOffset
    let vradius := baseRadius * (0.6 + r (i + 1) * 0.4)
    let px := M.cosF finalAngle * vradius
    let py := M.sinF finalAngle * vradius
    chipVertices M r baseRadius numV rem (v + 1) (i + 2) ((px, py) :: acc)
      (max maxSq (px * px + py * py))

/-- `generateChippedShape` (src/App.tsx:19-37): 5-9 vertices (one draw for
the count), returning the offset points and the square root of the maximal
squared vertex radius as the bounding radius. -/
def generateChippedShape (M : MathF) (r : ℕ → ℚ) (baseRadius : ℚ) (i : ℕ) :
    (List (ℚ × ℚ) × ℚ) × ℕ :=
  let numV : ℕ := (5 + ⌊r i * 5⌋).toNat
  let res := chipVertices M r baseRadius numV numV 0 (i + 1) [] 0
  ((res.1.1, M.sqrtF res.1.2), res.2)

/-- A three-way random color pick `colors[Math.floor(rand * 3)]`. -/
def pick3 (colors : List String) (q : ℚ) : String := colors.getD (⌊q * 3⌋).toNat ""

/-- The theme-specific debris color override (src/App.tsx:237-241): exactly
one of the four theme tests matches, consuming exactly one draw. -/
def debrisColorFor (theme : BackgroundTheme) (q : ℚ) : String :=
  match theme with
  | .FOREST => pick3 ["#8B4513", "#A0522D", "#5C4033"] q
  | .WASTELAND => pick3 ["#9c7b4f", "#8c6d3f", "#7b5e2e"] q
  | .VOLCANIC => pick3 ["#2E1A1A", "#3A1F1F", "#1B0D0D"] q
  | .SPACE => pick3 ["#AEC6CF", "#B6D0E2", "#C4D7E0"] q

/-- `fragmentCount = 8 + Math.floor(Math.random() * 5)` (src/App.tsx:234). -/
def spawnFragCount (r : ℕ → ℚ) (i : ℕ) : ℕ := (8 + ⌊r i * 5⌋).toNat

/-- `secondaryCount = 12 + Math.floor(Math.random() * 8)` (src/App.tsx:265). -/
def spawnSecCount (r : ℕ → ℚ) (i : ℕ) : ℕ := (12 + ⌊r i * 8⌋).toNat

/-- The debris fragment loop of `createDebris` (src/App.tsx:243-262): per
fragment, draws for the position jitter, the base radius, the chipped
shape, then the velocity, rotation and shade fields in object-literal
order. -/
def fragLoop (M : MathF) (r : ℕ → ℚ) (x y : ℕ) (debrisColor : String) :
    ℕ → ℕ → List Particle × ℕ
  | 0, i => ([], i)
  | rem + 1, i =>
    let particleX := (x : ℚ) + r i
    let particleY := (y : ℚ) + r (i + 1)
    let baseRadius := r (i + 2) * 0.4 + 0.1
    let gen := generateChippedShape M r baseRadius (i + 3)
    let j := gen.2
    let p : Particle :=
      { baseParticle with
        kind := PKind.debris,
        x := particleX,
        y := particleY,
        vx := (particleX - ((x : ℚ) + 0.5)) * 1.8 + (r j - 0.5) * 0.8,
        vy := (particleY - ((y : ℚ) + 0.5)) * 1.8 - r (j + 1) * 1.5,
        color := debrisColor,
        shapePoints := gen.1.1,
        boundingRadius := gen.1.2,
        rotation := r (j + 2) * M.piF * 2,
        rotationSpeed := (r (j + 3) - 0.5) * 0.2,
        shade := -(20 + r (j + 4) * 40) }
    let rest := fragLoop M r x y debrisColor rem (j + 5)
    (p :: rest.1, rest.2)

/-- The theme-dependent secondary-particle loop of `createDebris`
(src/App.tsx:264-335): per iteration one `life` draw, then a leaf (FOREST),
a smoke (WASTELAND, VOLCANIC — the latter with an extra ember on even
iterations), or a sparkle (SPACE), each field drawn in object-literal
order. -/
def secLoop (M : MathF) (r : ℕ → ℚ) (theme : BackgroundTheme) (x y : ℕ) :
    ℕ → ℕ → ℕ → List Particle × ℕ
  | 0, _, i => ([], i)
  | rem + 1, idx, i =>
    let life := 120 + r i * 60
    match theme with
    | .FOREST =>
      let p : Particle :=
        { baseParticle with
          kind := PKind.leaf,
          x := (x : ℚ) + 0.25 + r (i + 1) * 0.5,
          y := (y : ℚ) + r (i + 2) * 0.5,
          vx := (r (i + 3) - 0.5) * 0.03,
          vy := r (i + 4) * 0.02 + 0.01,
          size := 0.1 + r (i + 5) * 0.15,
          life := life,
          initialLife := life,
          rotation := r (i + 6) * M.piF * 2,
          rotationSpeed := (r (i + 7) - 0.5) * 0.05,
          flutter := r (i + 8) * 0.05,
          color := pick3 ["#228B22", "#32CD32", "#9ACD32"] (r (i + 9)) }
      let rest := secLoop M r theme x y rem (idx + 1) (i + 10)
      (p :: rest.1, rest.2)
    | .WASTELAND =>
      let p : Particle :=
        { baseParticle with
          kind := PKind.smoke,
          x := (x : ℚ) + 0.25 + r (i + 1) * 0.5,
          y := (y : ℚ) + r (i + 2) * 0.5,
          vx := (r (i + 3) - 0.5) * 0.015,
          vy := -(r (i + 4) * 0.03 + 0.01),
          radius := r (i + 5) * 0.2 + 0.05,
          life := life,
          initialLife := life,
          rgb := { r := 210, g := 180, b := 140 } }
      let rest := secLoop M r theme x y rem (idx + 1) (i + 6)
      (p :: rest.1, rest.2)
    | .VOLCANIC =>
      let p : Particle :=
        { baseParticle with
          kind := PKind.smoke,
          x := (x : ℚ) + 0.25 + r (i + 1) * 0.5,
          y := (y : ℚ) + r (i + 2) * 0.5,
          vx := (r (i + 3) - 0.5) * 0.01,
          vy := -(r (i + 4) * 0.08 + 0.04),
          radius := r (i + 5) * 0.2 + 0.05,
          life := life,
          initialLife := life,
          rgb := { r := 50, g := 50, b := 50 } }
      if idx % 2 = 0 then
        let e : Particle :=
          { baseParticle with
            kind := PKind.ember,
            x := (x : ℚ) + 0.25 + r (i + 6) * 0.5,
            y := (y : ℚ) + r (i + 7),
            vx := (r (i + 8) - 0.5) * 0.02,
            vy := -(r (i + 9) * 0.1 + 0.05),
            radius := r (i + 10) * 0.08 + 0.03,
            life := life * 0.8,
            initialLife := life * 0.8 }
        let rest := secLoop M r theme x y rem (idx + 1) (i + 11)
        (p :: e :: rest.1, rest.2)
      else
        let rest := secLoop M r theme x y rem (idx + 1) (i + 6)
        (p :: rest.1, rest.2)
    | .SPACE =>
      let p : Particle :=
        { baseParticle with
          kind := PKind.sparkle,
          x := (x : ℚ) + 0.1 + r (i + 1) * 0.8,
          y := (y : ℚ) + 0.1 + r (i + 2) * 0.8,
          radius := 0.05 + r (i + 3) * 0.2,
          life := 30 + r (i + 4) * 30,
          initialLife := 60,
          color := pick3 ["#FFFFFF", "#ADD8E6", "#F0F8FF"] (r (i + 5)) }
      let rest := secLoop M r theme x y rem (idx + 1) (i + 6)
      (p :: rest.1, rest.2)

/-- The per-destroyed-cell body of `createDebris` (src/App.tsx:231-335),
invoked for every non-empty cell of a cleared row: the fragment count draw,
the debris color draw, the fragment loop, the secondary count draw, and the
secondary loop, in source order. -/
def spawnForCell (M : MathF) (r : ℕ → ℚ) (theme : BackgroundTheme) (x y : ℕ) (i : ℕ) :
    List Particle × ℕ :=
  let frags := fragLoop M r x y (debrisColorFor theme (r (i + 1))) (spawnFragCount r i) (i + 2)
  let secs := secLoop M r theme x y (spawnSecCount r frags.2) 0 (frags.2 + 1)
  (frags.1 ++ secs.1, secs.2)

/-- Debris test used to count primary fragments. -/
def isDebrisB (p : Particle) : Bool := decide (p.kind = PKind.debris)

/-- Secondary test: every spawned non-debris particle except the VOLCANIC
bonus embers. -/
def isSecondaryB (p : Particle) : Bool :=
  decide (p.kind ≠ PKind.debris) && decide (p.kind ≠ PKind.ember)

theorem fragLoop_length (M : MathF) (r : ℕ → ℚ) (x y : ℕ) (dc : String)
    (rem i : ℕ) : ((fragLoop M r x y dc rem i).1).length = rem := by
  induction rem generalizing i with
  | zero => rfl
  | succ n ih =>
    simp only [fragLoop]
    simp [ih]

theorem fragLoop_kinds (M : MathF) (r : ℕ → ℚ) (x y : ℕ) (dc : String)
    (rem i : ℕ) : ∀ p ∈ (fragLoop M r x y dc rem i).1, p.kind = PKind.debris := by
  induction rem generalizing i with
  | zero =>
    intro p hp
    exact absurd hp (List.not_mem_nil p)
  | succ n ih =>
    intro p hp
    simp only [fragLoop] at hp
    rcases List.mem_cons.1 hp with hhead | htail
    · subst hhead
      rfl
    · exact ih _ p htail

theorem secLoop_secondary_length (M : MathF) (r : ℕ → ℚ) (theme : BackgroundTheme)
    (x y : ℕ) (rem idx i : ℕ) :
    ((secLoop M r theme x y rem idx i).1.filter isSecondaryB).length = rem := by
  induction rem generalizing idx i with
  | zero => cases theme <;> rfl
  | succ n ih =>
    cases theme with
    | FOREST =>
      simp only [secLoop]
      simp [List.filter_cons, isSecondaryB, ih]
    | WASTELAND =>
      simp only [secLoop]
      simp [List.filter_cons, isSecondaryB, ih]
    | VOLCANIC =>
      simp only [secLoop]
      by_cases hidx : idx % 2 = 0
      · simp only [hidx, if_pos rfl]
        simp [List.filter_cons, isSecondaryB, ih]
      · rw [if_neg hidx]
        simp [List.filter_cons, isSecondaryB, ih]
    | SPACE =>
      simp only [secLoop]
      simp [List.filter_cons, isSecondaryB, ih]

theorem secLoop_no_debris (M : MathF) (r : ℕ → ℚ) (theme : BackgroundTheme)
    (x y : ℕ) (rem idx i : ℕ) :
    ∀ p ∈ (secLoop M r theme x y rem idx i).1, p.kind ≠ PKind.debris := by
  induction rem generalizing idx i with
  | zero =>
    cases theme <;>
      exact fun p hp => absurd hp (List.not_mem_nil p)
  | succ n ih =>
    intro p hp
    cases theme with
    | FOREST =>
      simp only [secLoop] at hp
      rcases List.mem_cons.1 hp with hhead | htail
      · subst hhead
        simp
      · exact ih _ _ p htail
    | WASTELAND =>
      simp only [secLoop] at hp
      rcases List.mem_cons.1 hp with hhead | htail
      · subst hhead
        simp
      · exact ih _ _ p htail
    | VOLCANIC =>
      simp only [secLoop] at hp
      by_cases hidx : idx % 2 = 0
      · rw [if_pos hidx] at hp
        rcases List.mem_cons.1 hp with hhead | htail
        · subst hhead
          simp
        · rcases List.mem_cons.1 htail with hhead2 | htail2
          · subst hhead2
            simp
          · exact ih _ _ p htail2
      · rw [if_neg hidx] at hp
        rcases List.mem_cons.1 hp with hhead | htail
        · subst hhead
          simp
        · exact ih _ _ p htail
    | SPACE =>
      simp only [secLoop] at hp
      rcases List.mem_cons.1 hp with hhead | htail
      · subst hhead
        simp
      · exact ih _ _ p htail

/-- The per-kind life contract of one spawned particle. -/
def LifeContract (p : Particle) : Prop :=
  (p.kind = PKind.smoke ∨ p.kind = PKind.leaf →
    120 ≤ p.life ∧ p.life < 180 ∧ p.initialLife = p.life) ∧
  (p.kind = PKind.ember → 96 ≤ p.life ∧ p.life < 144 ∧ p.initialLife = p.life) ∧
  (p.kind = PKind.sparkle → 30 ≤ p.life ∧ p.life < 60 ∧ p.initialLife = 60)

theorem secLoop_life (M : MathF) (r : ℕ → ℚ) (hr : ValidRng r)
    (theme : BackgroundTheme) (x y : ℕ) (rem idx i : ℕ) :
    ∀ p ∈ (secLoop M r theme x y rem idx i).1, LifeContract p := by
  induction rem generalizing idx i with
  | zero =>
    cases theme <;>
      exact fun p hp => absurd hp (List.not_mem_nil p)
  | succ n ih =>
    intro p hp
    cases theme with
    | FOREST =>
      simp only [secLoop] at hp
      rcases List.mem_cons.1 hp with hhead | htail
      · subst hhead
        refine ⟨?_, ?_, ?_⟩
        · intro _
          have h0 := (hr i).1
          have h1 := (hr i).2
          refine ⟨by nlinarith, by nlinarith, rfl⟩
        · intro h
          simp at h
        · intro h
          simp at h
      · exact ih _ _ p htail
    | WASTELAND =>
      simp only [secLoop] at hp
      rcases List.mem_cons.1 hp with hhead | htail
      · subst hhead
        refine ⟨?_, ?_, ?_⟩
        · intro _
          have h0 := (hr i).1
          have h1 := (hr i).2
          refine ⟨by nlinarith, by nlinarith, rfl⟩
        · intro h
          simp at h
        · intro h
          simp at h
      · exact ih _ _ p htail
    | VOLCANIC =>
      simp only [secLoop] at hp
      by_cases hidx : idx % 2 = 0
      · rw [if_pos hidx] at hp
        rcases List.mem_cons.1 hp with hhead | htail
        · subst hhead
          refine ⟨?_, ?_, ?_⟩
          · intro _
            have h0 := (hr i).1
            have h1 := (hr i).2
            refine ⟨by nlinarith, by nlinarith, rfl⟩
          · intro h
            simp at h
          · intro h
            simp at h
        · rcases List.mem_cons.1 htail with hhead2 | htail2
          · subst hhead2
            refine ⟨?_, ?_, ?_⟩
            · intro h
              rcases h with h | h
              · simp at h
              · simp at h
            · intro _
              have h0 := (hr i).1
              have h1 := (hr i).2
              refine ⟨by nlinarith, by nlinarith, rfl⟩
            · intro h
              simp at h
          · exact ih _ _ p htail2
      · rw [if_neg hidx] at hp
        rcases List.mem_cons.1 hp with hhead | htail
        · subst hhead
          refine ⟨?_, ?_, ?_⟩
          · intro _
            have h0 := (hr i).1
            have h1 := (hr i).2
            refine ⟨by nlinarith, by nlinarith, rfl⟩
          · intro h
            simp at h
          · intro h
            simp at h
        · exact ih _ _ p htail
    | SPACE =>
      simp only [secLoop] at hp
      rcases List.mem_cons.1 hp with hhead | htail
      · subst hhead
        refine ⟨?_, ?_, ?_⟩
        · intro h
          rcases h with h | h
          · simp at h
          · simp at h
        · intro h
          simp at h
        · intro _
          have h0 := (hr (i + 4)).1
          have h1 := (hr (i + 4)).2
          refine ⟨by nlinarith, by nlinarith, rfl⟩
      · exact ih _ _ p htail

theorem secLoop_length_of_ne_volcanic (M : MathF) (r : ℕ → ℚ) (theme : BackgroundTheme)
    (x y : ℕ) (hth : theme ≠ BackgroundTheme.VOLCANIC) (rem idx i : ℕ) :
    ((secLoop M r theme x y rem idx i).1).length = rem := by
  induction rem generalizing idx i with
  | zero => cases theme <;> rfl
  | succ n ih =>
    cases theme with
    | FOREST =>
      simp only [secLoop]
      simp [ih]
    | WASTELAND =>
      simp only [secLoop]
      simp [ih]
    | VOLCANIC => exact absurd rfl hth
    | SPACE =>
      simp only [secLoop]
      simp [ih]

theorem spawnFragCount_bounds (r : ℕ → ℚ) (hr : ValidRng r) (i : ℕ) :
    8 ≤ spawnFragCount r i ∧ spawnFragCount r i ≤ 12 := by
  have h0 := (hr i).1
  have h1 := (hr i).2
  unfold spawnFragCount
  have hf0 : (0 : ℤ) ≤ ⌊r i * 5⌋ := Int.floor_nonneg.mpr (by nlinarith)
  have hf1 : ⌊r i * 5⌋ < 5 := Int.floor_lt.mpr (by push_cast; nlinarith)
  omega

theorem spawnSecCount_bounds (r : ℕ → ℚ) (hr : ValidRng r) (i : ℕ) :
    12 ≤ spawnSecCount r i ∧ spawnSecCount r i ≤ 19 := by
  have h0 := (hr i).1
  have h1 := (hr i).2
  unfold spawnSecCount
  have hf0 : (0 : ℤ) ≤ ⌊r i * 8⌋ := Int.floor_nonneg.mpr (by nlinarith)
  have hf1 : ⌊r i * 8⌋ < 8 := Int.floor_lt.mpr (by push_cast; nlinarith)
  omega

/-- Claim C5, amended: for every destroyed non-empty cell and every valid
random stream, the spawn policy emits between 8 and 12 debris fragments and
between 12 and 19 theme-dependent secondary particles (not counting the
extra embers the VOLCANIC theme adds on even iterations); smoke and leaf
secondaries receive `life = initialLife` in `[120, 180)`, VOLCANIC embers
receive `life = initialLife` in `[96, 144)`, and SPACE sparkles receive
`life` in `[30, 60)` with `initialLife = 60`. -/
theorem c5_spawn_policy_amended (M : MathF) (r : ℕ → ℚ) (hr : ValidRng r)
    (theme : BackgroundTheme) (x y : ℕ) (i : ℕ) :
    (8 ≤ ((spawnForCell M r theme x y i).1.filter isDebrisB).length ∧
      ((spawnForCell M r theme x y i).1.filter isDebrisB).length ≤ 12) ∧
    (12 ≤ ((spawnForCell M r theme x y i).1.filter isSecondaryB).length ∧
      ((spawnForCell M r theme x y i).1.filter isSecondaryB).length ≤ 19) ∧
    (∀ p ∈ (spawnForCell M r theme x y i).1, LifeContract p) := by
  unfold spawnForCell
  have hfragall := fragLoop_kinds M r x y (debrisColorFor theme (r (i + 1))) (spawnFragCount r i) (i + 2)
  have hfraglen := fragLoop_length M r x y (debrisColorFor theme (r (i + 1))) (spawnFragCount r i) (i + 2)
  have hfragfilter :
      ((fragLoop M r x y (debrisColorFor theme (r (i + 1))) (spawnFragCount r i) (i + 2)).1.filter isDebrisB) =
        (fragLoop M r x y (debrisColorFor theme (r (i + 1))) (spawnFragCount r i) (i + 2)).1 := by
    apply List.filter_eq_self.2
    intro p hp
    unfold isDebrisB
    exact decide_eq_true (hfragall p hp)
  have hsecnodeb := secLoop_no_debris M r theme x y
    (spawnSecCount r (fragLoop M r x y (debrisColorFor theme (r (i + 1))) (spawnFragCount r i) (i + 2)).2) 0
    ((fragLoop M r x y (debrisColorFor theme (r (i + 1))) (spawnFragCount r i) (i + 2)).2 + 1)
  have hsecnofilter :
      ((secLoop M r theme x y
          (spawnSecCount r (fragLoop M r x y (debrisColorFor theme (r (i + 1))) (spawnFragCount r i) (i + 2)).2) 0
          ((fragLoop M r x y (debrisColorFor theme (r (i + 1))) (spawnFragCount r i) (i + 2)).2 + 1)).1.filter isDebrisB) = [] := by
    apply List.filter_eq_nil.2
    intro p hp
    unfold isDebrisB
    simp only [decide_eq_true_eq]
    exact hsecnodeb p hp
  have hfragnosec :
      ((fragLoop M r x y (debrisColorFor theme (r (i + 1))) (spawnFragCount r i) (i + 2)).1.filter isSecondaryB) = [] := by
    apply List.filter_eq_nil.2
    intro p hp
    unfold isSecondaryB
    simp only [Bool.and_eq_true, decide_eq_true_eq, not_and]
    intro hcontra
    exact absurd (hfragall p hp) hcontra
  refine ⟨?_, ?_, ?_⟩
  · rw [List.filter_append, hfragfilter, hsecnofilter, List.append_nil, hfraglen]
    exact spawnFragCount_bounds r hr i
  · rw [List.filter_append, hfragnosec, List.nil_append, secLoop_secondary_length]
    exact spawnSecCount_bounds r hr _
  · intro p hp
    rcases List.mem_append.1 hp with hpf | hps
    · have hkind := hfragall p hpf
      refine ⟨?_, ?_, ?_⟩
      · intro h
        rcases h with h | h
        · rw [hkind] at h
          exact absurd h (by decide)
        · rw [hkind] at h
          exact absurd h (by decide)
      · intro h
        rw [hkind] at h
        exact absurd h (by decide)
      · intro h
        rw [hkind] at h
        exact absurd h (by decide)
    · exact secLoop_life M r hr theme x y _ _ _ p hps

/-- The abstract math functions pinned for concrete evaluation: `sqrt 0 = 0`
matches the real square root where it is consulted. -/
def M0 : MathF :=
  { cosF := fun _ => 0, sinF := fun _ => 0, sqrtF := fun _ => 0,
    atan2F := fun _ _ => 0, piF := 0 }

/-- The constant random stream drawing `7/8` forever — a legal
`Math.random` behavior prefix. -/
def r78 : ℕ → ℚ := fun _ => 7 / 8

theorem r78_valid : ValidRng r78 := by
  intro n
  unfold r78
  norm_num

/-- Claim C5, counterexample.  With the SPACE theme and the valid random
stream constantly drawing 7/8, one destroyed cell emits 19 secondary
particles — more than the 18 the claim allows — and every one of them is a
sparkle with `initialLife = 60`, not in the claimed 120-180 range. -/
theorem c5_counterexample :
    ((spawnForCell M0 r78 BackgroundTheme.SPACE 0 0 0).1.filter isSecondaryB).length = 19 ∧
    ((spawnForCell M0 r78 BackgroundTheme.SPACE 0 0 0).1.filter
        (fun p => decide (p.kind = PKind.sparkle) && decide (p.initialLife = (60 : ℚ)))).length = 19 := by
  have hsec19 : ∀ j : ℕ, spawnSecCount r78 j = 19 := by
    intro j
    unfold spawnSecCount r78
    have h7 : ⌊(7 : ℚ) / 8 * 8⌋ = 7 := by
      norm_num
    rw [h7]
    rfl
  have hsp60 : ∀ (M : MathF) (r : ℕ → ℚ) (rem idx i2 : ℕ),
      ((secLoop M r BackgroundTheme.SPACE 0 0 rem idx i2).1.filter
          (fun p => decide (p.kind = PKind.sparkle) && decide (p.initialLife = (60 : ℚ)))).length = rem := by
    intro M r rem
    induction rem with
    | zero =>
      intro idx i2
      rfl
    | succ n ih =>
      intro idx i2
      simp only [secLoop]
      simp [List.filter_cons, ih]
  constructor
  · unfold spawnForCell
    rw [List.filter_append]
    rw [List.filter_eq_nil.2 (fun p hp => by
      unfold isSecondaryB
      simp only [Bool.and_eq_true, decide_eq_true_eq, not_and]
      intro hcontra
      exact absurd (fragLoop_kinds M0 r78 0 0 _ _ _ p hp) hcontra)]
    rw [List.nil_append, secLoop_secondary_length, hsec19]
  · unfold spawnForCell
    rw [List.filter_append]
    rw [List.filter_eq_nil.2 (fun p hp => by
      simp only [Bool.and_eq_true, decide_eq_true_eq, not_and]
      intro hcontra
      rw [fragLoop_kinds M0 r78 0 0 _ _ _ p hp] at hcontra
      exact absurd hcontra (by decide))]
    rw [List.nil_append, hsp60, hsec19]

/-- Witness for `c5_spawn_policy_amended`: the FOREST theme with the
constant stream 7/8 at cell (0,0). -/
theorem c5_spawn_policy_amended_witness :
    (8 ≤ ((spawnForCell M0 r78 BackgroundTheme.FOREST 0 0 0).1.filter isDebrisB).length ∧
      ((spawnForCell M0 r78 BackgroundTheme.FOREST 0 0 0).1.filter isDebrisB).length ≤ 12) ∧
    (12 ≤ ((spawnForCell M0 r78 BackgroundTheme.FOREST 0 0 0).1.filter isSecondaryB).length ∧
      ((spawnForCell M0 r78 BackgroundTheme.FOREST 0 0 0).1.filter isSecondaryB).length ≤ 19) ∧
    (∀ p ∈ (spawnForCell M0 r78 BackgroundTheme.FOREST 0 0 0).1, LifeContract p) :=
  c5_spawn_policy_amended M0 r78 r78_valid BackgroundTheme.FOREST 0 0 0

/-- `GRAVITY` (src/unnamed/part_006:594). -/
def GRAVITY : ℚ := 0.002

/-- `AIR_FRICTION` (src/unnamed/part_006:595). -/
def AIR_FRICTION : ℚ := 0.98

/-- `SURFACE_FRICTION` (src/unnamed/part_006:596). -/
def SURFACE_FRICTION : ℚ := 0.85

/-- `BOUNCE_FACTOR` (src/unnamed/part_006:597). -/
def BOUNCE_FACTOR : ℚ := 0.6

/-- `PARTICLE_COLLISION_BOUNCE` (src/unnamed/part_006:598). -/
def PARTICLE_COLLISION_BOUNCE : ℚ := 0.6

/-- `board[yy]?.[xx]?.[1]`: the status of the cell at integer grid
coordinates, `none` when either lookup misses. -/
def statusAt (board : Board) (yy xx : Int) : Option Status :=
  match jsIndex board yy with
  | none => none
  | some row =>
    match jsIndex row xx with
    | none => none
    | some c => some c.2

/-- The resting early-return test of the debris step
(src/unnamed/part_006:614-619): once a debris particle is fully at rest,
look one bounding-radius (plus epsilon) below it; when that grid cell is
merged the particle is left exactly as it is. -/
def restsOnBlock (board : Board) (p : Particle) : Bool :=
  decide (0 ≤ ⌊p.y + p.boundingRadius + 0.01⌋) &&
  decide (⌊p.y + p.boundingRadius + 0.01⌋ < 20) &&
  decide (0 ≤ ⌊p.x⌋) && decide (⌊p.x⌋ < 10) &&
  decide (statusAt board ⌊p.y + p.boundingRadius + 0.01⌋ ⌊p.x⌋ = some Status.merged)

/-- Post-gravity, post-friction vertical velocity (src/unnamed/part_006:623-625). -/
def dVy1 (p : Particle) : ℚ := (p.vy + GRAVITY) * AIR_FRICTION

/-- Post-friction horizontal velocity (src/unnamed/part_006:624). -/
def dVx1 (p : Particle) : ℚ := p.vx * AIR_FRICTION

/-- Post-friction rotation speed (src/unnamed/part_006:626). -/
def dRs1 (p : Particle) : ℚ := p.rotationSpeed * AIR_FRICTION

/-- Candidate next x before wall handling (src/unnamed/part_006:628). -/
def dNextX0 (p : Particle) : ℚ := p.x + dVx1 p

/-- Candidate next y before ceiling handling (src/unnamed/part_006:629). -/
def dNextY0 (p : Particle) : ℚ := p.y + dVy1 p

/-- Wall reflection (src/unnamed/part_006:632-640): clamp x inside the side
walls, reflect vx with the bounce factor and halve the rotation speed. -/
def dWall (p : Particle) : ℚ × ℚ × ℚ :=
  if dNextX0 p - p.boundingRadius < 0 then
    (p.boundingRadius, -(dVx1 p) * BOUNCE_FACTOR, dRs1 p * 0.5)
  else if 10 < dNextX0 p + p.boundingRadius then
    (10 - p.boundingRadius, -(dVx1 p) * BOUNCE_FACTOR, dRs1 p * 0.5)
  else (dNextX0 p, dVx1 p, dRs1 p)

/-- Ceiling reflection (src/unnamed/part_006:642-645). -/
def dCeil (p : Particle) : ℚ × ℚ :=
  if dNextY0 p - p.boundingRadius < 0 then (p.boundingRadius, -(dVy1 p) * BOUNCE_FACTOR)
  else (dNextY0 p, dVy1 p)

/-- `gridX = Math.floor(nextX)` (src/unnamed/part_006:647). -/
def dGridX (p : Particle) : Int := ⌊(dWall p).1⌋

/-- `gridY = Math.floor(nextY + p.boundingRadius)` (src/unnamed/part_006:648). -/
def dGridY (p : Particle) : Int := ⌊(dCeil p).1 + p.boundingRadius⌋

/-- `onABlock` (src/unnamed/part_006:649): the particle is falling and the
grid cell below its projected position is merged. -/
def landedOnBlock (board : Board) (p : Particle) : Bool :=
  decide (0 < (dCeil p).2) &&
  decide (0 ≤ dGridY p) && decide (dGridY p < 20) &&
  decide (0 ≤ dGridX p) && decide (dGridX p < 10) &&
  decide (statusAt board (dGridY p) (dGridX p) = some Status.merged)

/-- Landing resolution (src/unnamed/part_006:651-659): sit on top of the
merged cell, bounce vy; when the bounced speed is below the 0.05 epsilon,
zero vy and apply surface friction to vx and the rotation speed.  Returns
`(nextY, vy, vx, rotationSpeed)`. -/
def dLand (board : Board) (p : Particle) : ℚ × ℚ × ℚ × ℚ :=
  if landedOnBlock board p = true then
    if |(-((dCeil p).2) * BOUNCE_FACTOR)| < 0.05 then
      ((dGridY p : ℚ) - p.boundingRadius, 0,
        (dWall p).2.1 * SURFACE_FRICTION, (dWall p).2.2 * SURFACE_FRICTION)
    else
      ((dGridY p : ℚ) - p.boundingRadius, -((dCeil p).2) * BOUNCE_FACTOR,
        (dWall p).2.1, (dWall p).2.2)
  else ((dCeil p).1, (dCeil p).2, (dWall p).2.1, (dWall p).2.2)

/-- The debris physics body of the snapshot `runPhysics`
(src/unnamed/part_006:621-665), after the resting early return. -/
def debrisMove (board : Board) (p : Particle) : Particle :=
  let land := dLand board p
  let vx4 : ℚ := if |land.2.2.1| < 0.01 then 0 else land.2.2.1
  let vy4 : ℚ := if |land.2.1| < 0.01 ∧ landedOnBlock board p = true then 0 else land.2.1
  let rs4 : ℚ := if |land.2.2.2| < 0.01 then 0 else land.2.2.2
  { p with x := (dWall p).1, y := land.1, vx := vx4, vy := vy4,
           rotation := p.rotation + rs4, rotationSpeed := rs4 }

/-- The smoke branch of the snapshot `runPhysics` (src/unnamed/part_006:602-611). -/
def smokeStep (M : MathF) (p : Particle) : Particle :=
  let life := p.life - 1
  let swirl := M.sinF (p.y * 0.8 + p.initialLife) * 0.002
  let vx := (p.vx + swirl) * 0.98
  let vy := (p.vy - 0.0003) * 0.98
  let radius := p.radius + 0.002
  { p with x := p.x + vx, y := p.y + vy, vx := vx, vy := vy, life := life, radius := radius }

/-- The per-particle map body of the snapshot `runPhysics`
(src/unnamed/part_006:600-666): smoke is integrated separately; a debris
particle fully at rest on a merged cell is returned unchanged; otherwise
the debris physics runs. -/
def particleStepV6 (M : MathF) (board : Board) (p : Particle) : Particle :=
  if p.kind = PKind.smoke then smokeStep M p
  else if p.vx = 0 ∧ p.vy = 0 ∧ p.rotationSpeed = 0 ∧ restsOnBlock board p = true then p
  else debrisMove board p

/-- Claim C6: resting detection zeroes the vertical velocity once the
bounced vertical speed is below the 0.05 epsilon while the grid cell below
the particle (by bounding-radius projection) is merged; and a debris
particle with zero velocity resting directly above a merged cell is
returned completely unchanged by the next physics step — no jitter. -/
theorem c6_resting_detection :
    (∀ (M : MathF) (board : Board) (p : Particle),
        p.kind = PKind.debris → p.vx = 0 → p.vy = 0 → p.rotationSpeed = 0 →
        restsOnBlock board p = true →
        particleStepV6 M board p = p) ∧
    (∀ (board : Board) (p : Particle),
        landedOnBlock board p = true →
        |(-((dCeil p).2) * BOUNCE_FACTOR)| < 0.05 →
        (debrisMove board p).vy = 0) := by
  constructor
  · intro M board p hk hvx hvy hrs hrest
    unfold particleStepV6
    have hns : ¬ p.kind = PKind.smoke := by
      rw [hk]
      decide
    rw [if_neg hns, if_pos ⟨hvx, hvy, hrs, hrest⟩]
  · intro board p hLand hSmall
    unfold debrisMove
    have hland : dLand board p =
        ((dGridY p : ℚ) - p.boundingRadius, 0,
          (dWall p).2.1 * SURFACE_FRICTION, (dWall p).2.2 * SURFACE_FRICTION) := by
      unfold dLand
      rw [if_pos hLand, if_pos hSmall]
    rw [hland]
    have hzero : |(0 : ℚ)| < 0.01 ∧ landedOnBlock board p = true := by
      constructor
      · norm_num
      · exact hLand
    simp only [if_pos hzero]

/-- A two-row board with a single merged cell at row 1, column 2, used by
the C6 witness. -/
abbrev c6Board : Board :=
  [List.replicate 10 (0, Status.clear),
   (List.replicate 2 ((0 : ℕ), Status.clear)) ++ [((1 : ℕ), Status.merged)] ++
     List.replicate 7 ((0 : ℕ), Status.clear)]

/-- A resting debris particle directly above the merged cell of `c6Board`. -/
abbrev c6Resting : Particle :=
  { baseParticle with
    kind := PKind.debris, x := 2.5, y := 0.9, boundingRadius := 0.1 }

/-- A slowly falling debris particle about to land on the merged cell of
`c6Board`. -/
abbrev c6Falling : Particle :=
  { baseParticle with
    kind := PKind.debris, x := 2.5, y := 0.93, vy := 0.03, boundingRadius := 0.1 }

/-- Witness for `c6_resting_detection`: the resting particle is returned
unchanged, and the falling one lands with its vertical velocity zeroed. -/
theorem c6_resting_detection_witness :
    particleStepV6 M0 c6Board c6Resting = c6Resting ∧
      (debrisMove c6Board c6Falling).vy = 0 := by
  constructor
  · apply c6_resting_detection.1 M0 c6Board c6Resting rfl rfl rfl rfl
    have hy : ⌊c6Resting.y + c6Resting.boundingRadius + 0.01⌋ = (1 : ℤ) := by
      show ⌊(0.9 : ℚ) + 0.1 + 0.01⌋ = (1 : ℤ)
      norm_num [Int.floor_eq_iff]
    have hx : ⌊c6Resting.x⌋ = (2 : ℤ) := by
      show ⌊(2.5 : ℚ)⌋ = (2 : ℤ)
      norm_num [Int.floor_eq_iff]
    unfold restsOnBlock
    rw [hy, hx]
    decide
  · apply c6_resting_detection.2 c6Board c6Falling
    · have hceil : dCeil c6Falling = (0.96136, 0.03136) := by
        unfold dCeil dNextY0 dVy1
        rw [if_neg ?hc]
        case hc =>
          show ¬ ((0.93 : ℚ) + (0.03 + GRAVITY) * AIR_FRICTION - 0.1 < 0)
          norm_num [GRAVITY, AIR_FRICTION]
        show ((0.93 : ℚ) + (0.03 + GRAVITY) * AIR_FRICTION, (0.03 + GRAVITY) * AIR_FRICTION) = _
        norm_num [GRAVITY, AIR_FRICTION]
      have hwall : dWall c6Falling = (2.5, 0, 0) := by
        unfold dWall dNextX0 dVx1 dRs1
        rw [if_neg ?hw1, if_neg ?hw2]
        case hw1 =>
          show ¬ ((2.5 : ℚ) + 0 * AIR_FRICTION - 0.1 < 0)
          norm_num [AIR_FRICTION]
        case hw2 =>
          show ¬ ((10 : ℚ) < 2.5 + 0 * AIR_FRICTION + 0.1)
          norm_num [AIR_FRICTION]
        show ((2.5 : ℚ) + 0 * AIR_FRICTION, 0 * AIR_FRICTION, 0 * AIR_FRICTION) = _
        norm_num [AIR_FRICTION]
      have hgy : dGridY c6Falling = 1 := by
        unfold dGridY
        rw [hceil]
        show ⌊(0.96136 : ℚ) + 0.1⌋ = (1 : ℤ)
        norm_num [Int.floor_eq_iff]
      have hgx : dGridX c6Falling = 2 := by
        unfold dGridX
        rw [hwall]
        show ⌊(2.5 : ℚ)⌋ = (2 : ℤ)
        norm_num [Int.floor_eq_iff]
      unfold landedOnBlock
      rw [hceil, hgy, hgx]
      have hst : statusAt c6Board 1 2 = some Status.merged := by decide
      rw [hst]
      have hvy : (0 : ℚ) < 0.03136 := by norm_num
      rw [decide_eq_true hvy]
      decide
    · have hceil : dCeil c6Falling = (0.96136, 0.03136) := by
        unfold dCeil dNextY0 dVy1
        rw [if_neg ?hc2]
        case hc2 =>
          show ¬ ((0.93 : ℚ) + (0.03 + GRAVITY) * AIR_FRICTION - 0.1 < 0)
          norm_num [GRAVITY, AIR_FRICTION]
        show ((0.93 : ℚ) + (0.03 + GRAVITY) * AIR_FRICTION, (0.03 + GRAVITY) * AIR_FRICTION) = _
        norm_num [GRAVITY, AIR_FRICTION]
      rw [hceil]
      show |(-(0.03136 : ℚ)) * BOUNCE_FACTOR| < 0.05
      rw [abs_lt]
      constructor
      · norm_num [BOUNCE_FACTOR]
      · norm_num [BOUNCE_FACTOR]

/-- `dx` of the pairwise debris collision test (src/unnamed/part_006:683). -/
def pairDx (p1 p2 : Particle) : ℚ := p2.x - p1.x

/-- `dy` of the pairwise debris collision test (src/unnamed/part_006:684). -/
def pairDy (p1 p2 : Particle) : ℚ := p2.y - p1.y

/-- `distance = Math.sqrt(dx*dx + dy*dy)` (src/unnamed/part_006:685). -/
def pairDistance (M : MathF) (p1 p2 : Particle) : ℚ :=
  M.sqrtF (pairDx p1 p2 * pairDx p1 p2 + pairDy p1 p2 * pairDy p1 p2)

/-- `minDistance = p1.boundingRadius + p2.boundingRadius`
(src/unnamed/part_006:686). -/
def pairMinDistance (p1 p2 : Particle) : ℚ := p1.boundingRadius + p2.boundingRadius

/-- The guard under which the separation and velocity-exchange block runs
(src/unnamed/part_006:682-688): both particles are debris and
`distance < minDistance`.  There is no zero-distance test. -/
def pairResponseEntered (M : MathF) (p1 p2 : Particle) : Bool :=
  decide (p1.kind = PKind.debris) && decide (p2.kind = PKind.debris) &&
  decide (pairDistance M p1 p2 < pairMinDistance p1 p2)

/-- The pairwise collision response (src/unnamed/part_006:688-710):
positions separated by `overlap * (dx / distance)` each way, velocities
exchanged in the rotated frame scaled by the restitution factor.  In ℚ a
division by zero yields `0`; in JS the same division yields `NaN`, so this
function is consulted only through `pairResponseEntered` and
`pairDistance`, which expose the zero denominator itself. -/
def pairResponse (M : MathF) (p1 p2 : Particle) : Particle × Particle :=
  if pairResponseEntered M p1 p2 = true then
    let dx := pairDx p1 p2
    let dy := pairDy p1 p2
    let distance := pairDistance M p1 p2
    let overlap := 0.5 * (pairMinDistance p1 p2 - distance)
    let angle := M.atan2F dy dx
    let s := M.sinF angle
    let c := M.cosF angle
    let v1x := p1.vx * c + p1.vy * s
    let v1y := p1.vy * c - p1.vx * s
    let v2x := p2.vx * c + p2.vy * s
    let v2y := p2.vy * c - p2.vx * s
    let v1x2 := v2x * PARTICLE_COLLISION_BOUNCE
    let v2x2 := v1x * PARTICLE_COLLISION_BOUNCE
    ({ p1 with x := p1.x - overlap * (dx / distance), y := p1.y - overlap * (dy / distance),
               vx := v1x2 * c - v1y * s, vy := v1y * c + v1x2 * s },
     { p2 with x := p2.x + overlap * (dx / distance), y := p2.y + overlap * (dy / distance),
               vx := v2x2 * c - v2y * s, vy := v2y * c + v2x2 * s })
  else (p1, p2)

/-- Two overlapping debris particles at the same position. -/
abbrev c7p1 : Particle :=
  { baseParticle with
    kind := PKind.debris, x := 2, y := 2, boundingRadius := 0.1 }

/-- Second copy at the identical position. -/
abbrev c7p2 : Particle :=
  { baseParticle with
    kind := PKind.debris, x := 2, y := 2, boundingRadius := 0.1 }

/-- Claim C7, failing input: two debris particles at identical positions.
The separation block is entered (`distance < minDistance` holds), yet the
distance is exactly zero — `dx` and `dy` are both zero, so `Math.sqrt`
receives `0` — and the block divides `dx` and `dy` by that zero distance;
no guard exists on the path.  The claim that zero separation is explicitly
guarded against is contradicted. -/
theorem c7_zero_distance_bug :
    pairDx c7p1 c7p2 = 0 ∧ pairDy c7p1 c7p2 = 0 ∧
    pairDistance M0 c7p1 c7p2 = 0 ∧
    0 < pairMinDistance c7p1 c7p2 ∧
    pairResponseEntered M0 c7p1 c7p2 = true := by
  refine ⟨?_, ?_, rfl, ?_, ?_⟩
  · norm_num [pairDx, c7p1, c7p2, baseParticle]
  · norm_num [pairDy, c7p1, c7p2, baseParticle]
  · norm_num [pairMinDistance, c7p1, c7p2, baseParticle]
  · unfold pairResponseEntered
    have hlt : pairDistance M0 c7p1 c7p2 < pairMinDistance c7p1 c7p2 := by
      norm_num [pairDistance, pairMinDistance, M0, c7p1, c7p2, baseParticle]
    rw [decide_eq_true hlt]
    decide

/-- The component state relevant to the discrete game machine.  The two
nested `setTimeout` callbacks of `handlePieceLanded` (src/App.tsx:379-423)
are modelled as explicitly pending one-shot callbacks together with the
data their closures capture (the cleared row indices and the merged board
`newBoard`); `pendingClear` is the 200 time-unit callback, `pendingSweep`
the 1300 time-unit callback it schedules. -/
structure GameState where
  board : Board
  player : Player
  nextT : Shape
  score : ℕ
  lines : ℕ
  level : ℕ
  isGameOver : Bool
  isPaused : Bool
  isAnimating : Bool
  particles : List Particle
  pendingClear : Option (List ℕ × Board)
  pendingSweep : Option (List ℕ × Board)
deriving DecidableEq, Repr

/-- Spawning a piece (src/App.tsx:406-410 and 426-430):
`x = BOARD_WIDTH / 2 - Math.floor(pieceWidth / 2)`, `y = 0`. -/
def spawnPlayer (t : Shape) : Player :=
  { pos := { x := (5 : Int) - (((t.headD []).length / 2 : ℕ) : Int), y := 0 },
    tetromino := t, collided := false }

/-- Marking the full rows as cracking (src/App.tsx:371-376). -/
def crackingBoard (nb : Board) (idxs : List ℕ) : Board :=
  nb.mapIdx (fun y row =>
    if idxs.contains y then row.map (fun c => (c.1, Status.cracking)) else row)

/-- Blanking the cleared rows for the animation (src/App.tsx:382-387). -/
def blankRows (nb : Board) (idxs : List ℕ) : Board :=
  nb.mapIdx (fun y row => if idxs.contains y then emptyRow else row)

/-- `handlePieceLanded` (src/App.tsx:343-441), board/state part: merge the
landed piece; with at least one full row, show the cracking board, raise
`isAnimating` and schedule the clear callback; otherwise commit the board
and spawn the queued piece, or go to game over when the spawn position
collides.  `rand` stands for the next random tetromino. -/
def handlePieceLandedStep (s : GameState) (landed : Player) (rand : Shape) : GameState :=
  let nb := mergePiece landed s.board
  let idxs := fullRowIndices nb
  if 0 < idxs.length then
    { s with board := crackingBoard nb idxs, isAnimating := true,
             pendingClear := some (idxs, nb) }
  else
    let np := spawnPlayer s.nextT
    if checkCollision np nb 0 0 = true then
      { s with board := nb, isGameOver := true }
    else
      { s with board := nb, player := np, nextT := rand }

/-- Firing the 200 time-unit clear callback (src/App.tsx:379-388): spawn the
debris (`debris` stands for the random batch `createDebris` builds), blank
the cleared rows, and schedule the sweep callback. -/
def fireClearStep (s : GameState) (debris : List Particle) : GameState :=
  match s.pendingClear with
  | none => s
  | some pr =>
    { s with particles := capConcat MAX_PARTICLES s.particles debris,
             board := blankRows pr.2 pr.1,
             pendingClear := none,
             pendingSweep := some pr }

/-- Firing the 1300 time-unit sweep callback (src/App.tsx:390-422): sweep
the rows captured by the closure, apply score and lines (the level then
refreshes to `floor(lines / 10) + 1` through the effect at
src/App.tsx:674-684), and spawn the queued piece or go to game over. -/
def fireSweepStep (s : GameState) (rand : Shape) : GameState :=
  match s.pendingSweep with
  | none => s
  | some pr =>
    let swept := sweepBoard pr.2 pr.1
    let score2 := s.score + LINE_POINTS.getD (pr.1.length - 1) 0 * s.level
    let lines2 := s.lines + pr.1.length
    if checkCollision (spawnPlayer s.nextT) swept 0 0 = true then
      { s with board := swept, score := score2, lines := lines2,
               level := lines2 / 10 + 1,
               isGameOver := true, isAnimating := false, pendingSweep := none }
    else
      { s with board := swept, score := score2, lines := lines2,
               level := lines2 / 10 + 1,
               player := spawnPlayer s.nextT, nextT := rand,
               isAnimating := false, pendingSweep := none }

/-- `drop` (src/App.tsx:444-456): no-op while paused, game over or
animating; move down when free; otherwise game over when the piece is
still above row 1, else lock. -/
def dropStep (s : GameState) (rand : Shape) : GameState :=
  if s.isPaused = true ∨ s.isGameOver = true ∨ s.isAnimating = true then s
  else if checkCollision s.player s.board 0 1 = false then
    { s with player := { s.player with
        pos := { x := s.player.pos.x, y := s.player.pos.y + 1 } } }
  else if s.player.pos.y < 1 then { s with isGameOver := true }
  else handlePieceLandedStep s s.player rand

/-- `movePlayer` (src/App.tsx:458-462). -/
def movePlayerStep (s : GameState) (dir : Int) : GameState :=
  if checkCollision s.player s.board dir 0 = false then
    { s with player := { s.player with
        pos := { x := s.player.pos.x + dir, y := s.player.pos.y } } }
  else s

/-- The `playerRotate` key action applied to the state. -/
def rotateStep (s : GameState) : GameState :=
  { s with player := playerRotate s.board s.player }

/-- The `hardDrop` probing loop (src/App.tsx:487-489), made total with fuel
that exceeds the bound established by claim C10. -/
def dropHeightAux (p : Player) (b : Board) : ℕ → ℕ → ℕ
  | 0, h => h
  | fuel + 1, h =>
    if checkCollision p b 0 ((h : Int) + 1) = true then h
    else dropHeightAux p b fuel (h + 1)

/-- `hardDrop` (src/App.tsx:486-498): find the drop height, mark the player
collided, and resolve the landing at the dropped position. -/
def hardDropStep (s : GameState) (rand : Shape) : GameState :=
  let h := dropHeightAux s.player s.board
    (21 + s.player.pos.y.natAbs + s.player.tetromino.length) 0
  let landed : Player := { s.player with
    pos := { x := s.player.pos.x, y := s.player.pos.y + (h : Int) } }
  handlePieceLandedStep
    { s with player := { s.player with collided := true } } landed rand

/-- `togglePause` (src/App.tsx:500-506). -/
def togglePauseStep (s : GameState) : GameState :=
  if s.isGameOver = true then s else { s with isPaused := !s.isPaused }

/-- The keys `handleKeyDown` dispatches on (src/App.tsx:562-580). -/
inductive Key where
  | left
  | right
  | down
  | up
  | space
  | keyP
  | other
deriving DecidableEq, Repr

/-- `handleKeyDown` (src/App.tsx:562-580): every piece-affecting input is
dropped while game over, while the piece is locked in, or while the
line-clear animation runs; pause toggling is handled before the pause
guard; everything else is dropped while paused. -/
def keyStep (s : GameState) (k : Key) (rand : Shape) : GameState :=
  if s.isGameOver = true ∨ s.player.collided = true ∨ s.isAnimating = true then s
  else
    match k with
    | Key.keyP => togglePauseStep s
    | _ =>
      if s.isPaused = true then s
      else
        match k with
        | Key.left => movePlayerStep s (-1)
        | Key.right => movePlayerStep s 1
        | Key.down => dropStep s rand
        | Key.up => rotateStep s
        | Key.space => hardDropStep s rand
        | _ => s

/-- `startGame` (src/App.tsx:175-197): reset the board, stats, particles
and piece and leave game-over/pause.  The source clears no timers and does
not reset `isAnimating`: `pendingClear`, `pendingSweep` and `isAnimating`
are untouched, exactly as in the code. -/
def startGameStep (s : GameState) (firstPiece nextPiece : Shape) : GameState :=
  { s with board := createBoard, score := 0, lines := 0, level := 1, particles := [],
           player := spawnPlayer firstPiece, nextT := nextPiece,
           isGameOver := false, isPaused := false }

/-- The T piece shape from the constants table (value code 6). -/
def tShape : Shape := [[0, 0, 0], [6, 6, 6], [0, 6, 0]]

/-- A board with a single merged cell at row 3, column 5: the freshly
spawned T piece does not collide at its spawn position, but cannot move
down from row 0. -/
def c8Board : Board :=
  List.replicate 3 emptyRow ++
    [(List.replicate 5 ((0 : ℕ), Status.clear)) ++ [((1 : ℕ), Status.merged)] ++
      List.replicate 4 ((0 : ℕ), Status.clear)] ++
    List.replicate 16 emptyRow

/-- A running game whose freshly spawned T piece sits at its spawn position
without collision. -/
def c8State : GameState :=
  { board := c8Board, player := spawnPlayer tShape, nextT := tShape, score := 0,
    lines := 0, level := 1, isGameOver := false, isPaused := false,
    isAnimating := false, particles := [], pendingClear := none, pendingSweep := none }

/-- Claim C8, counterexample.  In `c8State` the newly spawned piece does
not collide at its spawn position, yet the first gravity tick transitions
the game to game over: `drop` fires its own fatal condition
(`player.pos.y < 1` on a blocked descent, src/App.tsx:450-453), so a
spawn-position collision is not the only transition into `GameOver`. -/
theorem c8_counterexample :
    c8State.isGameOver = false ∧
    c8State.player = spawnPlayer c8State.player.tetromino ∧
    checkCollision c8State.player c8State.board 0 0 = false ∧
    (dropStep c8State [[0]]).isGameOver = true := by
  refine ⟨rfl, rfl, by decide, by decide⟩

/-- Claim C8, amended: game over is entered in exactly two ways — a gravity
tick whose downward move collides while the piece is still above row 1, or
a lock whose queued piece collides at its spawn position (immediately when
no rows clear, or at the sweep callback when they do); and once
`isGameOver` is set, gravity ticks and every piece-affecting input leave
the state unchanged until an explicit restart. -/
theorem c8_game_over_amended :
    (∀ (s : GameState) (k : Key) (rand : Shape),
      s.isGameOver = true → keyStep s k rand = s) ∧
    (∀ (s : GameState) (rand : Shape),
      s.isGameOver = true → dropStep s rand = s) ∧
    (∀ (s : GameState) (rand : Shape), s.isGameOver = false →
      ((dropStep s rand).isGameOver = true ↔
        (s.isPaused = false ∧ s.isAnimating = false ∧
         checkCollision s.player s.board 0 1 = true ∧
         (s.player.pos.y < 1 ∨
          (1 ≤ s.player.pos.y ∧
           fullRowIndices (mergePiece s.player s.board) = [] ∧
           checkCollision (spawnPlayer s.nextT) (mergePiece s.player s.board) 0 0 = true))))) ∧
    (∀ (s : GameState) (rand : Shape), s.isGameOver = false →
      ((fireSweepStep s rand).isGameOver = true ↔
        ∃ pr, s.pendingSweep = some pr ∧
          checkCollision (spawnPlayer s.nextT) (sweepBoard pr.2 pr.1) 0 0 = true)) := by
  refine ⟨?_, ?_, ?_, ?_⟩
  · intro s k rand h
    unfold keyStep
    rw [if_pos (Or.inl h)]
  · intro s rand h
    unfold dropStep
    rw [if_pos (Or.inr (Or.inl h))]
  · intro s rand h
    unfold dropStep
    rcases hp : s.isPaused with _ | _
    · rcases ha : s.isAnimating with _ | _
      · rcases hc : checkCollision s.player s.board 0 1 with _ | _
        · simp [h, hc]
        · by_cases hy : s.player.pos.y < 1
          · simp [h, hy]
          · have hy2 : 1 ≤ s.player.pos.y := by omega
            simp only [h]
            unfold handlePieceLandedStep
            by_cases hlen : 0 < (fullRowIndices (mergePiece s.player s.board)).length
            · have hne : fullRowIndices (mergePiece s.player s.board) ≠ [] := by
                intro hcontra
                rw [hcontra] at hlen
                simp at hlen
              simp [h, hlen, hne, hy, hy2]
            · have hnil : fullRowIndices (mergePiece s.player s.board) = [] := by
                rcases hcase : (fullRowIndices (mergePiece s.player s.board)) with _ | ⟨a, l⟩
                · rfl
                · exfalso
                  apply hlen
                  rw [hcase]
                  simp
              rcases hcsp : checkCollision (spawnPlayer s.nextT) (mergePiece s.player s.board) 0 0 with _ | _
              · simp [h, hcsp, hlen, hnil, hy, hy2]
              · simp [h, hcsp, hlen, hnil, hy, hy2]
      · simp [h]
    · simp [h]
  · intro s rand h
    unfold fireSweepStep
    rcases hps : s.pendingSweep with _ | pr
    · simp [h]
    · rcases hcsp : checkCollision (spawnPlayer s.nextT) (sweepBoard pr.2 pr.1) 0 0 with _ | _
      · simp [h, hcsp]
      · simp [h, hcsp]


/-- A game-over copy of `c8State`. -/
def c8Over : GameState := { c8State with isGameOver := true }

/-- A non-animating running state with no pending sweep callback. -/
def c8Idle : GameState := { c8State with board := createBoard }

/-- Witness for `c8_game_over_amended`: a game-over state swallows input
and ticks unchanged; the counterexample state satisfies the gravity-tick
characterization; an idle state never reaches game over from the sweep
callback. -/
theorem c8_game_over_amended_witness :
    keyStep c8Over Key.left [[0]] = c8Over ∧
    dropStep c8Over [[0]] = c8Over ∧
    ((dropStep c8State [[0]]).isGameOver = true ↔
      (c8State.isPaused = false ∧ c8State.isAnimating = false ∧
       checkCollision c8State.player c8State.board 0 1 = true ∧
       (c8State.player.pos.y < 1 ∨
        (1 ≤ c8State.player.pos.y ∧
         fullRowIndices (mergePiece c8State.player c8State.board) = [] ∧
         checkCollision (spawnPlayer c8State.nextT) (mergePiece c8State.player c8State.board) 0 0 = true)))) ∧
    ((fireSweepStep c8Idle [[0]]).isGameOver = true ↔
      ∃ pr, c8Idle.pendingSweep = some pr ∧
        checkCollision (spawnPlayer c8Idle.nextT) (sweepBoard pr.2 pr.1) 0 0 = true) :=
  ⟨c8_game_over_amended.1 c8Over Key.left [[0]] rfl,
   c8_game_over_amended.2.1 c8Over [[0]] rfl,
   c8_game_over_amended.2.2.1 c8State [[0]] rfl,
   c8_game_over_amended.2.2.2 c8Idle [[0]] rfl⟩

/-- A stale board captured by the sweep closure: bottom row full, one
merged cell in the row above it. -/
def staleBoard : Board :=
  List.replicate 18 emptyRow ++
    [[((1 : ℕ), Status.merged)] ++ List.replicate 9 ((0 : ℕ), Status.clear),
     List.replicate 10 ((2 : ℕ), Status.merged)]

/-- A game mid line-clear animation: the sweep callback for the bottom row
of `staleBoard` is pending. -/
def c9State : GameState :=
  { board := blankRows staleBoard [19], player := spawnPlayer tShape, nextT := tShape,
    score := 0, lines := 0, level := 1, isGameOver := false, isPaused := false,
    isAnimating := true, particles := [], pendingClear := none,
    pendingSweep := some ([19], staleBoard) }

/-- Claim C9, failing run.  Restarting (`startGame`) while the sweep
callback of the line-clear pipeline is pending does not cancel it — the
source contains no `clearTimeout` — so after the restart the callback is
still pending (and `isAnimating` is still raised), and firing it replaces
the freshly created empty board with the sweep of the stale captured
board, corrupting the new game. -/
theorem c9_stale_timer_bug :
    (startGameStep c9State tShape tShape).board = createBoard ∧
    (startGameStep c9State tShape tShape).pendingSweep = some ([19], staleBoard) ∧
    (startGameStep c9State tShape tShape).isAnimating = true ∧
    (fireSweepStep (startGameStep c9State tShape tShape) tShape).board ≠ createBoard := by
  refine ⟨rfl, rfl, rfl, by decide⟩

end RetroStack
